import Mathlib

/-!
Verification of the pipecat realtime demo (`src/main.py`) against its
natural-language specification.

The development shallowly embeds the session bot of `main.py`:
the pipeline assembly in `run_bot`, the patched websocket receive loop
`_patched_receive_messages`, the startup credential checks, the VAD
configuration, and the argument flow from `websocket_endpoint` down to the
`HeyGenVideoService` constructor.  Behavior of the pipecat runtime itself
(PipelineTask, PipelineRunner, the Silero VAD) is not part of the
repository's sources; where a claim depends on it, the relevant behavior is
modelled from the specification and marked as such in the doc comment.
-/

namespace PipecatDemo

/-- Frames flowing through the pipeline, after `pipecat.frames.frames`:
`AudioRawFrame` carries PCM data with a sample rate and channel count;
`EndFrame` is the end-of-session control frame queued on disconnect;
the remaining variants stand for the other (non-audio) frame kinds that the
serializer can produce. -/
inductive PFrame
  | audioRaw (sampleRate : Nat) (channels : Nat) (data : List Nat)
  | textFrame (content : String)
  | transcription (content : String)
  | endFrame
  | interruption
  deriving DecidableEq, Repr

/-- `True` exactly on `AudioRawFrame`s, mirroring the
`isinstance(frame, AudioRawFrame)` test of `_patched_receive_messages`. -/
def PFrame.isAudioRaw : PFrame → Bool
  | .audioRaw _ _ _ => true
  | _ => false

/-- The stages wired into the `Pipeline([...])` call of `run_bot`, one
constructor per distinct stage instance. -/
inductive Stage
  | inputTransport
  | stt
  | userContextAggregator
  | llm
  | tts
  | heygenVideoService
  | outputTransport
  | assistantContextAggregator
  deriving DecidableEq, Repr

/-- A stage is an input boundary exactly when it is the websocket input
transport (`transport.input()`). -/
def Stage.isInputBoundary : Stage → Bool
  | .inputTransport => true
  | _ => false

/-- The ordered stage list passed to `Pipeline([...])` in `run_bot`
(src/main.py lines 119-130). -/
def pipelineStages : List Stage :=
  [Stage.inputTransport, Stage.stt, Stage.userContextAggregator, Stage.llm,
   Stage.tts, Stage.heygenVideoService, Stage.outputTransport,
   Stage.assistantContextAggregator]

/-- An inbound websocket byte message (`message` in
`self._websocket.iter_bytes()`), modelled as its byte list. -/
abbrev Msg := List Nat

/-- The observable actions of `_patched_receive_messages` on one connection:
pushing a decoded audio frame on the dedicated audio path
(`self.push_audio_frame(frame)`), pushing any other decoded frame on the
generic internal path (`self._internal_push_frame(frame)`), and invoking the
disconnect callback (`self._callbacks.on_client_disconnected(...)`). -/
inductive Emit
  | audioPath (f : PFrame)
  | internalPath (f : PFrame)
  | clientDisconnected
  deriving DecidableEq, Repr

/-- How the inbound byte stream of a connection terminates: `iter_bytes`
either finishes normally (end of stream on the receive loop) or raises a
socket error out of the `async for`. -/
inductive StreamEnd
  | eof
  | socketError
  deriving DecidableEq, Repr

/-- The body of the receive loop for one message `m`:
`frame = self._params.serializer.deserialize(message)`; when the result is
falsy the loop continues with nothing emitted; an `AudioRawFrame` goes to the
audio path, every other frame to the internal path.  The serializer is
abstracted as the function `deser`. -/
def handleMessage (deser : Msg → Option PFrame) (m : Msg) : List Emit :=
  match deser m with
  | none => []
  | some f => if f.isAudioRaw then [Emit.audioPath f] else [Emit.internalPath f]

/-- `_patched_receive_messages` over a whole connection: the loop handles
each yielded message in order; the trailing
`await self._callbacks.on_client_disconnected(...)` runs only when the
iteration finishes normally — a socket error raised out of the loop skips
it (there is no try/finally in the source). -/
def receiveMessages (deser : Msg → Option PFrame) (msgs : List Msg)
    (e : StreamEnd) : List Emit :=
  msgs.flatMap (handleMessage deser)
    ++ (match e with
        | .eof => [Emit.clientDisconnected]
        | .socketError => [])

/-- A concrete serializer used to instantiate the routing theorems:
message `[0]` decodes to an audio frame, `[1]` to a text frame, everything
else fails to decode. -/
def sampleDeser : Msg → Option PFrame
  | [0] => some (PFrame.audioRaw 16000 1 [1, 2])
  | [1] => some (PFrame.textFrame "hi")
  | _ => none

/-- Modelled from the spec: the PipelineTask run-state machine
(Created → Running → Stopping → Stopped); the task lifecycle lives in the
pipecat runtime, which is not part of this repository's sources. -/
inductive RunState
  | created
  | running
  | stopping
  | stopped
  deriving DecidableEq, Repr

/-- Modelled from the spec: the observable state of one running Task — its
lifecycle state, the stages that have confirmed drain of the end-of-session
frame, and the frames written to the client connection. -/
structure TaskModel where
  state : RunState
  drained : List Stage
  written : List PFrame
  deriving DecidableEq, Repr

/-- Modelled from the spec: processing one queued frame. While Running, an
EndFrame moves the task to Stopping and any other frame is written through
to the connection; once the task has left Running no further frame is
written. -/
def stepFrame (t : TaskModel) (f : PFrame) : TaskModel :=
  match t.state with
  | RunState.running =>
      if f = PFrame.endFrame then { t with state := RunState.stopping }
      else { t with written := t.written ++ [f] }
  | _ => t

/-- Modelled from the spec: draining the end-of-session frame through the
remaining stages, one stage-drain step per stage; the task reaches Stopped
only after every stage has confirmed the drain. -/
def drainStages : List Stage → TaskModel → TaskModel
  | [], t => { t with state := RunState.stopped }
  | s :: rest, t => drainStages rest { t with drained := t.drained ++ [s] }

/-- Modelled from the spec: `runner.run(task)` — the task starts Running,
processes its queued frames in order, and, when an end-of-session frame has
moved it to Stopping, returns only once the frame has drained through every
pipeline stage and the task is Stopped. -/
def runnerRun (queued : List PFrame) : TaskModel :=
  let t := queued.foldl stepFrame
    { state := RunState.running, drained := [], written := [] }
  match t.state with
  | RunState.stopping => drainStages pipelineStages t
  | _ => t

/-- The frames queued by the `on_client_disconnected` handler of `run_bot`:
`await task.queue_frames([EndFrame()])`. -/
def on_client_disconnected_frames : List PFrame := [PFrame.endFrame]

/-- Pipeline task parameters, after `pipecat.pipeline.task.PipelineParams`;
only the field set by `run_bot` is modelled, with the library default. -/
structure PipelineParams where
  allow_interruptions : Bool := false
  deriving DecidableEq, Repr

/-- The parameters passed to `PipelineTask` in `run_bot`:
`PipelineParams(allow_interruptions=True)`. -/
def taskParams : PipelineParams :=
  { allow_interruptions := true }

/-- Modelled from the spec: the in-flight turn state of a task — its
lifecycle state and its buffered partial output, each buffered frame tagged
with the turn that produced it. -/
structure TurnModel where
  state : RunState
  buffered : List (Nat × PFrame)
  deriving DecidableEq, Repr

/-- Modelled from the spec: interruption handling. When interruptions are
allowed, an interruption signal arriving during turn `currentTurn` discards
the buffered partial output of exactly that turn and leaves the lifecycle
state untouched; with interruptions disallowed the signal is ignored. -/
def handleInterruption (p : PipelineParams) (currentTurn : Nat)
    (t : TurnModel) : TurnModel :=
  if p.allow_interruptions then
    { state := t.state,
      buffered := t.buffered.filter (fun x => x.1 != currentTurn) }
  else t

/-- A concrete in-flight turn state used to instantiate the interruption
theorem: turn 0 has buffered partial output, a frame of turn 1 is already
queued behind it. -/
def sampleTurn : TurnModel :=
  { state := RunState.running,
    buffered := [(0, PFrame.textFrame "a"), (1, PFrame.textFrame "b")] }

/-- The process-wide configuration read from the environment at startup: the
three vendor API keys (src/main.py lines 34-44), read-only afterwards. -/
structure Config where
  deepgram_api_key : String
  openai_api_key : String
  elevenlabs_api_key : String
  deriving DecidableEq, Repr

/-- The startup failure raised when a required credential is absent — the
spec's ConfigurationError; the source raises `ValueError(message)` with the
messages reproduced below. -/
inductive ConfigurationError
  | missingCredential (message : String)
  deriving DecidableEq, Repr

/-- Python falsiness of an environment lookup: `os.getenv` yields `None`
when the variable is absent, and `not value` is also true for the empty
string. -/
def falsyEnv : Option String → Bool
  | none => true
  | some s => s == ""

/-- The module-level credential checks of `main.py` (lines 34-44), run when
the module loads, before any connection is accepted: each key is read with
`os.getenv` and, when falsy, a `ValueError` with the corresponding message
is raised; otherwise all three keys are available to the sessions. -/
def loadConfig (env : String → Option String) :
    Except ConfigurationError Config :=
  let d := env "DEEPGRAM_API_KEY"
  if falsyEnv d then
    Except.error (ConfigurationError.missingCredential "DEEPGRAM_API_KEY must be set")
  else
    let o := env "OPENAI_API_KEY"
    if falsyEnv o then
      Except.error (ConfigurationError.missingCredential "OPENAI_API_KEY")
    else
      let e := env "ELEVENLABS_API_KEY"
      if falsyEnv e then
        Except.error (ConfigurationError.missingCredential "ELEVENLABS_API_KEY must be set")
      else
        Except.ok { deepgram_api_key := d.getD "",
                    openai_api_key := o.getD "",
                    elevenlabs_api_key := e.getD "" }

/-- The application handle that exists once startup has succeeded; Tasks are
created only later, one per accepted websocket connection, so at startup
none exist yet. -/
structure ServerHandle where
  cfg : Config
  tasksStarted : Nat
  deriving DecidableEq, Repr

/-- Process startup: the module-level credential checks run first; only when
they pass is the application constructed, with no Task created yet. -/
def startProcess (env : String → Option String) :
    Except ConfigurationError ServerHandle :=
  (loadConfig env).map (fun cfg => { cfg := cfg, tasksStarted := 0 })

/-- Number of Tasks created by the startup outcome: none on error, and none
yet on success (Tasks are created per connection, after startup). -/
def tasksCreatedAtStartup : Except ConfigurationError ServerHandle → Nat
  | Except.error _ => 0
  | Except.ok h => h.tasksStarted

/-- The three session-identifying strings supplied at connection time on the
`/user-audio-input` websocket route. -/
structure ConnArgs where
  session_id : String
  session_token : String
  realtime_endpoint : String
  deriving DecidableEq, Repr

/-- The string arguments handed to the avatar-rendering collaborator's
constructor: `HeyGenVideoService(session_id=..., session_token=...,
session=session, realtime_endpoint=...)`; the aiohttp `session` is a fresh
per-connection resource and is not a string, so it is not modelled here. -/
structure HeyGenArgs where
  session_id : String
  session_token : String
  realtime_endpoint : String
  deriving DecidableEq, Repr

/-- Voice-activity detection parameters, after
`pipecat.audio.vad.vad_analyzer.VADParams`; durations are in seconds,
modelled as exact rationals. -/
structure VADParams where
  min_volume : ℚ
  start_secs : ℚ
  stop_secs : ℚ
  confidence : ℚ
  deriving DecidableEq, Repr

/-- The `VADParams(...)` literal built in `run_bot` (src/main.py lines
53-58). -/
def vadParams : VADParams :=
  { min_volume := 6/10, start_secs := 2/10, stop_secs := 12/10,
    confidence := 7/10 }

/-- The per-session resources constructed inside `run_bot`: every stage is a
fresh instance parameterized only by the process-wide configuration and the
connection's own arguments. -/
structure SessionResources where
  vad : VADParams
  stages : List Stage
  heygen : HeyGenArgs
  stt_api_key : String
  llm_api_key : String
  llm_model : String
  tts_api_key : String
  tts_voice_id : String
  task_params : PipelineParams
  deriving DecidableEq, Repr

/-- `run_bot` (src/main.py lines 46-149), restricted to the construction of
the session's resources: the VAD parameters, the stage chain, the
avatar-rendering collaborator's constructor arguments, the vendor-service
keys read from the process-wide configuration, and the task parameters. -/
def run_bot (cfg : Config) (a : ConnArgs) : SessionResources :=
  { vad := vadParams,
    stages := pipelineStages,
    heygen := { session_id := a.session_id, session_token := a.session_token,
                realtime_endpoint := a.realtime_endpoint },
    stt_api_key := cfg.deepgram_api_key,
    llm_api_key := cfg.openai_api_key,
    llm_model := "gpt-4o-mini",
    tts_api_key := cfg.elevenlabs_api_key,
    tts_voice_id := "29vD33N1CtxCmqQRPOHJ",
    task_params := taskParams }

/-- `websocket_endpoint` (src/main.py lines 153-168): accepts the connection
and calls `run_bot` with the three session-identifying strings it received,
unchanged. -/
def websocket_endpoint (cfg : Config)
    (session_id session_token realtime_endpoint : String) : SessionResources :=
  run_bot cfg { session_id := session_id, session_token := session_token,
                realtime_endpoint := realtime_endpoint }

/-- One session's dynamic state: its fresh resources, its own inbound
message queue, and the emissions it has produced so far. -/
structure SessionState where
  res : SessionResources
  inbox : List Msg
  emits : List Emit
  deriving DecidableEq, Repr

/-- A new session as created per accepted connection: fresh resources from
`run_bot`, the connection's own inbound messages, no output yet. -/
def newSession (cfg : Config) (a : ConnArgs) (inbox : List Msg) :
    SessionState :=
  { res := run_bot cfg a, inbox := inbox, emits := [] }

/-- One processing step of a session: handle the next inbound message of its
own queue with its own serializer; a session with an empty queue is idle. -/
def sessionStep (deser : Msg → Option PFrame) (s : SessionState) :
    SessionState :=
  match s.inbox with
  | [] => s
  | m :: rest =>
      { s with inbox := rest, emits := s.emits ++ handleMessage deser m }

/-- Two concurrently running sessions. -/
structure World where
  first : SessionState
  second : SessionState
  deriving DecidableEq, Repr

/-- One scheduler step: run one step of the chosen session; the other
session's state is untouched. -/
def worldStep (deser : Msg → Option PFrame) (pick : Bool) (w : World) :
    World :=
  if pick then { w with first := sessionStep deser w.first }
  else { w with second := sessionStep deser w.second }

/-- Run an arbitrary interleaving of the two sessions. -/
def runSchedule (deser : Msg → Option PFrame) (sched : List Bool)
    (w : World) : World :=
  sched.foldl (fun w p => worldStep deser p w) w

/-- One analyzed audio sample for voice-activity detection: the detector's
confidence and the measured volume of one fixed-duration analysis window. -/
structure VadSample where
  confidence : ℚ
  volume : ℚ
  deriving DecidableEq, Repr

/-- A sample counts as speech when it reaches both the confidence threshold
and the minimum volume of the configured parameters. -/
def isSpeech (p : VADParams) (s : VadSample) : Bool :=
  decide (p.confidence ≤ s.confidence) && decide (p.min_volume ≤ s.volume)

/-- Modelled from the spec: the voice-activity analyzer's debounce state —
whether an utterance is in progress, the accumulated consecutive speech time
while quiet, the accumulated consecutive silence time while speaking, and
the number of utterance segments started. The Silero VAD implementation
lives in the pipecat runtime, outside this repository's sources. -/
structure VadState where
  speaking : Bool
  speechRun : ℚ
  silenceRun : ℚ
  segments : Nat
  deriving DecidableEq, Repr

/-- Modelled from the spec: one debounce step over a sample of duration
`dur` seconds — an utterance segment starts only after `start_secs` of
uninterrupted speech and ends only after `stop_secs` of uninterrupted
silence. -/
def vadStep (p : VADParams) (dur : ℚ) (st : VadState) (s : VadSample) :
    VadState :=
  if isSpeech p s then
    if st.speaking then { st with silenceRun := 0 }
    else
      let run := st.speechRun + dur
      if p.start_secs ≤ run then
        { speaking := true, speechRun := 0, silenceRun := 0,
          segments := st.segments + 1 }
      else { st with speechRun := run }
  else
    if st.speaking then
      let run := st.silenceRun + dur
      if p.stop_secs ≤ run then
        { speaking := false, speechRun := 0, silenceRun := 0,
          segments := st.segments }
      else { st with silenceRun := run }
    else { st with speechRun := 0 }

/-- Modelled from the spec: the number of utterance segments the analyzer
starts on a sample sequence, starting from silence. -/
def vadSegments (p : VADParams) (dur : ℚ) (samples : List VadSample) : Nat :=
  (samples.foldl (vadStep p dur)
    { speaking := false, speechRun := 0, silenceRun := 0,
      segments := 0 }).segments

/-- Two seconds of silence at ten samples per second. -/
def silenceSamples : List VadSample :=
  List.replicate 20 { confidence := 0, volume := 0 }

/-- Three seconds of confident speech at ten samples per second. -/
def speechSamples : List VadSample :=
  List.replicate 30 { confidence := 1, volume := 1 }

end PipecatDemo

namespace PipecatDemo

theorem clientDisconnected_not_mem_handleMessage
    (deser : Msg → Option PFrame) (m : Msg) :
    Emit.clientDisconnected ∉ handleMessage deser m := by
  unfold handleMessage
  cases deser m with
  | none => simp
  | some f => cases f <;> simp [PFrame.isAudioRaw]

theorem clientDisconnected_not_mem_flatMap
    (deser : Msg → Option PFrame) (msgs : List Msg) :
    Emit.clientDisconnected ∉ msgs.flatMap (handleMessage deser) := by
  intro h
  rcases List.mem_flatMap.mp h with ⟨m, _, hm⟩
  exact clientDisconnected_not_mem_handleMessage deser m hm

theorem mem_handleMessage (deser : Msg → Option PFrame) (m : Msg)
    (x : Emit) (hx : x ∈ handleMessage deser m) :
    ∃ f, deser m = some f ∧
      ((f.isAudioRaw = true ∧ x = Emit.audioPath f)
        ∨ (f.isAudioRaw = false ∧ x = Emit.internalPath f)) := by
  unfold handleMessage at hx
  cases h : deser m with
  | none => rw [h] at hx; simp at hx
  | some f =>
      rw [h] at hx
      by_cases ha : f.isAudioRaw = true
      · simp [ha] at hx
        exact ⟨f, rfl, Or.inl ⟨ha, hx⟩⟩
      · simp [ha] at hx
        exact ⟨f, rfl, Or.inr ⟨by simpa using ha, hx⟩⟩

/-- C1: the pipeline handed to the Task is exactly the ordered chain
[input transport, STT, user context aggregator, LLM, TTS, avatar-render
service, output transport, assistant context aggregator]; the single input
boundary stage sits at the head, no stage appears twice, and as a flat list
the chain is strictly linear. -/
theorem pipeline_assembly :
    pipelineStages =
      [Stage.inputTransport, Stage.stt, Stage.userContextAggregator,
       Stage.llm, Stage.tts, Stage.heygenVideoService, Stage.outputTransport,
       Stage.assistantContextAggregator]
    ∧ pipelineStages.head? = some Stage.inputTransport
    ∧ pipelineStages.filter (fun s => s.isInputBoundary) = [Stage.inputTransport]
    ∧ pipelineStages.Nodup := by
  refine ⟨rfl, rfl, rfl, ?_⟩
  decide

theorem mem_receiveMessages_path (deser : Msg → Option PFrame)
    (msgs : List Msg) (e : StreamEnd) (x : Emit)
    (hx : x ∈ receiveMessages deser msgs e) :
    x = Emit.clientDisconnected ∨
      ∃ f, ((f.isAudioRaw = true ∧ x = Emit.audioPath f)
        ∨ (f.isAudioRaw = false ∧ x = Emit.internalPath f)) := by
  unfold receiveMessages at hx
  rcases List.mem_append.mp hx with h | h
  · rcases List.mem_flatMap.mp h with ⟨m, _, hm⟩
    rcases mem_handleMessage deser m x hm with ⟨f, _, hor⟩
    exact Or.inr ⟨f, hor⟩
  · cases e with
    | eof => simp at h; exact Or.inl h
    | socketError => simp at h

/-- C3 counterexample: on a connection whose receive loop is aborted by a
socket error, the disconnect callback is invoked zero times, not exactly
once. -/
theorem disconnect_once_counterexample :
    (receiveMessages (fun _ => none) [] StreamEnd.socketError).count
      Emit.clientDisconnected ≠ 1 := by
  decide

/-- C3 (amended): the input boundary synthesizes the client-disconnected
signal exactly once per connection when the disconnect is detected as
end-of-stream on the receive loop, and zero times when the receive loop is
aborted by a socket error, for every serializer and inbound message
sequence. -/
theorem disconnect_emission_count (deser : Msg → Option PFrame)
    (msgs : List Msg) :
    (receiveMessages deser msgs StreamEnd.eof).count Emit.clientDisconnected = 1
    ∧ (receiveMessages deser msgs StreamEnd.socketError).count
        Emit.clientDisconnected = 0 := by
  have h0 : (msgs.flatMap (handleMessage deser)).count Emit.clientDisconnected = 0 :=
    List.count_eq_zero.mpr (clientDisconnected_not_mem_flatMap deser msgs)
  constructor
  · simp [receiveMessages, List.count_append, h0]
  · simp [receiveMessages, List.count_append, h0]

/-- C4: every inbound message that decodes to an audio frame is pushed on the
dedicated audio path, every other decoded frame is pushed on the generic
internal path, and neither path ever carries a frame of the other kind. -/
theorem audio_routing (deser : Msg → Option PFrame) (msgs : List Msg)
    (e : StreamEnd) (m : Msg) (f : PFrame)
    (hm : m ∈ msgs) (hf : deser m = some f) :
    (f.isAudioRaw = true → Emit.audioPath f ∈ receiveMessages deser msgs e)
    ∧ (f.isAudioRaw = false → Emit.internalPath f ∈ receiveMessages deser msgs e)
    ∧ (∀ g, Emit.audioPath g ∈ receiveMessages deser msgs e → g.isAudioRaw = true)
    ∧ (∀ g, Emit.internalPath g ∈ receiveMessages deser msgs e →
        g.isAudioRaw = false) := by
  refine ⟨?_, ?_, ?_, ?_⟩
  · intro ha
    apply List.mem_append_left
    exact List.mem_flatMap.mpr ⟨m, hm, by simp [handleMessage, hf, ha]⟩
  · intro ha
    apply List.mem_append_left
    exact List.mem_flatMap.mpr ⟨m, hm, by simp [handleMessage, hf, ha]⟩
  · intro g hg
    rcases mem_receiveMessages_path deser msgs e _ hg with h | ⟨f', hor⟩
    · simp at h
    · rcases hor with ⟨ha, he⟩ | ⟨_, he⟩
      · simp only [Emit.audioPath.injEq] at he
        exact he ▸ ha
      · simp at he
  · intro g hg
    rcases mem_receiveMessages_path deser msgs e _ hg with h | ⟨f', hor⟩
    · simp at h
    · rcases hor with ⟨_, he⟩ | ⟨ha, he⟩
      · simp at he
      · simp only [Emit.internalPath.injEq] at he
        exact he ▸ ha

/-- C4 witness: on a concrete connection the decoded audio frame appears on
the audio path. -/
theorem audio_routing_witness :
    Emit.audioPath (PFrame.audioRaw 16000 1 [1, 2])
      ∈ receiveMessages sampleDeser [[0], [1]] StreamEnd.eof :=
  (audio_routing sampleDeser [[0], [1]] StreamEnd.eof [0]
      (PFrame.audioRaw 16000 1 [1, 2]) (by decide) (by decide)).1 rfl

/-- C10: an inbound message whose deserialization yields no frame is silently
skipped — the connection's emissions are exactly those of the same stream
without that message, so nothing is forwarded for it, no error is produced,
subsequent messages are still processed, and the connection is not
terminated. -/
theorem undecodable_message_skipped (deser : Msg → Option PFrame)
    (a b : List Msg) (m : Msg) (e : StreamEnd) (h : deser m = none) :
    receiveMessages deser (a ++ m :: b) e = receiveMessages deser (a ++ b) e := by
  unfold receiveMessages
  simp [List.flatMap_append, List.flatMap_cons, handleMessage, h]

/-- C10 witness: a concrete undecodable message between two decodable ones
leaves the connection's emissions unchanged. -/
theorem undecodable_message_skipped_witness :
    receiveMessages sampleDeser ([[0]] ++ [9] :: [[1]]) StreamEnd.eof
      = receiveMessages sampleDeser ([[0]] ++ [[1]]) StreamEnd.eof :=
  undecodable_message_skipped sampleDeser [[0]] [[1]] [9] StreamEnd.eof (by decide)

theorem stepFrame_stopping (t : TaskModel) (f : PFrame)
    (h : t.state = RunState.stopping) : stepFrame t f = t := by
  obtain ⟨st, dr, wr⟩ := t
  simp only [] at h
  subst h
  rfl

theorem foldl_stepFrame_stopping (r : List PFrame) (t : TaskModel)
    (h : t.state = RunState.stopping) : r.foldl stepFrame t = t := by
  induction r with
  | nil => rfl
  | cons f r ih => rw [List.foldl_cons, stepFrame_stopping t f h]; exact ih

theorem stepFrame_state_cases (t : TaskModel) (f : PFrame)
    (h : t.state = RunState.running ∨ t.state = RunState.stopping) :
    (stepFrame t f).state = RunState.running
      ∨ (stepFrame t f).state = RunState.stopping := by
  rcases h with h | h
  · obtain ⟨st, dr, wr⟩ := t
    simp only [] at h
    subst h
    by_cases hf : f = PFrame.endFrame
    · exact Or.inr (by simp [stepFrame, hf])
    · exact Or.inl (by simp [stepFrame, hf])
  · rw [stepFrame_stopping t f h]
    exact Or.inr h

theorem stepFrame_drained (t : TaskModel) (f : PFrame) :
    (stepFrame t f).drained = t.drained := by
  obtain ⟨st, dr, wr⟩ := t
  cases st <;> simp [stepFrame]
  split <;> rfl

theorem foldl_stepFrame_drained (q : List PFrame) (t : TaskModel) :
    (q.foldl stepFrame t).drained = t.drained := by
  induction q generalizing t with
  | nil => rfl
  | cons f q ih => rw [List.foldl_cons, ih, stepFrame_drained]

theorem foldl_stepFrame_end_state (q : List PFrame) (t : TaskModel)
    (h : t.state = RunState.running ∨ t.state = RunState.stopping) :
    ((q ++ [PFrame.endFrame]).foldl stepFrame t).state = RunState.stopping := by
  induction q generalizing t with
  | nil =>
      rcases h with h | h
      · obtain ⟨st, dr, wr⟩ := t
        simp only [] at h
        subst h
        simp [stepFrame]
      · simp [stepFrame_stopping t _ h, h]
  | cons f q ih =>
      rw [List.cons_append, List.foldl_cons]
      exact ih _ (stepFrame_state_cases t f h)

theorem drainStages_spec (l : List Stage) (t : TaskModel) :
    (drainStages l t).state = RunState.stopped
    ∧ (drainStages l t).written = t.written
    ∧ (drainStages l t).drained = t.drained ++ l := by
  induction l generalizing t with
  | nil => simp [drainStages]
  | cons s rest ih =>
      obtain ⟨h1, h2, h3⟩ := ih { t with drained := t.drained ++ [s] }
      refine ⟨h1, h2, ?_⟩
      rw [drainStages, h3]
      simp

/-- C2: the `on_client_disconnected` handler queues exactly the
end-of-session frame, and for any frames queued before and after it, running
the task returns with the task in the terminal Stopped state, the
end-of-session frame having drained through every pipeline stage, and with
no frame queued after the disconnect written to the connection. -/
theorem disconnect_stops_task (q r : List PFrame) :
    on_client_disconnected_frames = [PFrame.endFrame]
    ∧ (runnerRun (q ++ on_client_disconnected_frames ++ r)).state
        = RunState.stopped
    ∧ (runnerRun (q ++ on_client_disconnected_frames ++ r)).drained
        = pipelineStages
    ∧ (runnerRun (q ++ on_client_disconnected_frames ++ r)).written
        = (runnerRun (q ++ on_client_disconnected_frames)).written := by
  have h1 : ((q ++ on_client_disconnected_frames).foldl stepFrame
      { state := RunState.running, drained := [], written := [] }).state
      = RunState.stopping :=
    foldl_stepFrame_end_state q _ (Or.inl rfl)
  have h2 : (q ++ on_client_disconnected_frames ++ r).foldl stepFrame
      ({ state := RunState.running, drained := [], written := [] } : TaskModel)
      = (q ++ on_client_disconnected_frames).foldl stepFrame
          { state := RunState.running, drained := [], written := [] } := by
    rw [List.foldl_append]
    exact foldl_stepFrame_stopping r _ h1
  have hrun : runnerRun (q ++ on_client_disconnected_frames ++ r)
      = drainStages pipelineStages
          ((q ++ on_client_disconnected_frames).foldl stepFrame
            { state := RunState.running, drained := [], written := [] }) := by
    simp only [runnerRun]
    rw [h2, h1]
  have hrun2 : runnerRun (q ++ on_client_disconnected_frames)
      = drainStages pipelineStages
          ((q ++ on_client_disconnected_frames).foldl stepFrame
            { state := RunState.running, drained := [], written := [] }) := by
    simp only [runnerRun]
    rw [h1]
  obtain ⟨hs, hw, hd⟩ := drainStages_spec pipelineStages
    ((q ++ on_client_disconnected_frames).foldl stepFrame
      { state := RunState.running, drained := [], written := [] })
  refine ⟨rfl, ?_, ?_, ?_⟩
  · rw [hrun]; exact hs
  · rw [hrun, hd, foldl_stepFrame_drained]
    rfl
  · rw [hrun, hrun2]

/-- C5: the task is created with interruptions enabled
(`allow_interruptions=True`), and an interruption arriving while turn `k` is
in flight keeps the task Running, discards every buffered partial-output
frame of turn `k`, and preserves the buffered frames of every other turn. -/
theorem interruption_enabled (k : Nat) (t : TurnModel)
    (h : t.state = RunState.running) :
    taskParams.allow_interruptions = true
    ∧ (handleInterruption taskParams k t).state = RunState.running
    ∧ (∀ f, (k, f) ∉ (handleInterruption taskParams k t).buffered)
    ∧ (∀ j f, j ≠ k →
        (((j, f) ∈ (handleInterruption taskParams k t).buffered)
          ↔ (j, f) ∈ t.buffered)) := by
  refine ⟨rfl, ?_, ?_, ?_⟩
  · simp [handleInterruption, taskParams, h]
  · intro f hf
    simp [handleInterruption, taskParams, List.mem_filter] at hf
  · intro j f hj
    simp [handleInterruption, taskParams, List.mem_filter, hj]

/-- C5 witness: the concrete running turn state `sampleTurn`, interrupted at
turn 0. -/
theorem interruption_enabled_witness :
    taskParams.allow_interruptions = true
    ∧ (handleInterruption taskParams 0 sampleTurn).state = RunState.running
    ∧ (∀ f, (0, f) ∉ (handleInterruption taskParams 0 sampleTurn).buffered)
    ∧ (∀ j f, j ≠ 0 →
        (((j, f) ∈ (handleInterruption taskParams 0 sampleTurn).buffered)
          ↔ (j, f) ∈ sampleTurn.buffered)) :=
  interruption_enabled 0 sampleTurn rfl

/-- C7: if any of the three required credentials is absent from the
environment, startup fails fast — the outcome of `startProcess` is an error
of the class `ConfigurationError` (the only error class its type can surface
to the caller) — and no Task has been created. -/
theorem missing_credential_fails_fast (env : String → Option String)
    (h : env "DEEPGRAM_API_KEY" = none ∨ env "OPENAI_API_KEY" = none
      ∨ env "ELEVENLABS_API_KEY" = none) :
    (startProcess env).isOk = false
    ∧ tasksCreatedAtStartup (startProcess env) = 0 := by
  have hfal : falsyEnv (env "DEEPGRAM_API_KEY") = true
      ∨ falsyEnv (env "OPENAI_API_KEY") = true
      ∨ falsyEnv (env "ELEVENLABS_API_KEY") = true := by
    rcases h with h | h | h
    · exact Or.inl (by rw [h]; rfl)
    · exact Or.inr (Or.inl (by rw [h]; rfl))
    · exact Or.inr (Or.inr (by rw [h]; rfl))
  have hload : ∃ e, loadConfig env = Except.error e := by
    simp only [loadConfig]
    by_cases h1 : falsyEnv (env "DEEPGRAM_API_KEY") = true
    · rw [if_pos h1]; exact ⟨_, rfl⟩
    · rw [if_neg h1]
      by_cases h2 : falsyEnv (env "OPENAI_API_KEY") = true
      · rw [if_pos h2]; exact ⟨_, rfl⟩
      · rw [if_neg h2]
        by_cases h3 : falsyEnv (env "ELEVENLABS_API_KEY") = true
        · rw [if_pos h3]; exact ⟨_, rfl⟩
        · rcases hfal with hf | hf | hf
          · exact absurd hf h1
          · exact absurd hf h2
          · exact absurd hf h3
  obtain ⟨e, he⟩ := hload
  constructor
  · simp [startProcess, he, Except.map, Except.isOk, Except.toBool]
  · simp [startProcess, he, Except.map, tasksCreatedAtStartup]

/-- C7 witness: the empty environment is missing every credential. -/
theorem missing_credential_fails_fast_witness :
    (startProcess (fun _ => none)).isOk = false
    ∧ tasksCreatedAtStartup (startProcess (fun _ => none)) = 0 :=
  missing_credential_fails_fast (fun _ => none) (Or.inl rfl)

/-- C9: the three session-identifying strings supplied at connection time
reach the avatar-rendering collaborator's constructor unchanged, through
`websocket_endpoint` and `run_bot`. -/
theorem session_strings_opaque (cfg : Config)
    (session_id session_token realtime_endpoint : String) :
    (websocket_endpoint cfg session_id session_token realtime_endpoint).heygen
      = { session_id := session_id, session_token := session_token,
          realtime_endpoint := realtime_endpoint } :=
  rfl

theorem sessionStep_res (deser : Msg → Option PFrame) (s : SessionState) :
    (sessionStep deser s).res = s.res := by
  unfold sessionStep
  obtain ⟨res, inbox, emits⟩ := s
  cases inbox <;> rfl

theorem iterate_sessionStep_res (deser : Msg → Option PFrame) (n : Nat)
    (s : SessionState) : ((sessionStep deser)^[n] s).res = s.res := by
  induction n generalizing s with
  | zero => rfl
  | succ n ih =>
      rw [Function.iterate_succ_apply, ih, sessionStep_res]

theorem runSchedule_components (deser : Msg → Option PFrame)
    (sched : List Bool) (w : World) :
    (runSchedule deser sched w).first
      = (sessionStep deser)^[sched.count true] w.first
    ∧ (runSchedule deser sched w).second
      = (sessionStep deser)^[sched.count false] w.second := by
  induction sched generalizing w with
  | nil => exact ⟨rfl, rfl⟩
  | cons p sched ih =>
      have hstep : runSchedule deser (p :: sched) w
          = runSchedule deser sched (worldStep deser p w) := rfl
      obtain ⟨ih1, ih2⟩ := ih (worldStep deser p w)
      cases p with
      | true =>
          constructor
          · rw [hstep, ih1]
            simp [worldStep, List.count_cons, Function.iterate_succ_apply]
          · rw [hstep, ih2]
            simp [worldStep, List.count_cons]
      | false =>
          constructor
          · rw [hstep, ih1]
            simp [worldStep, List.count_cons]
          · rw [hstep, ih2]
            simp [worldStep, List.count_cons, Function.iterate_succ_apply]

/-- C6: two concurrently running sessions share no mutable state — under any
interleaving, each session's final state (resources, remaining inbox and
emitted frames) is exactly what it would be running alone for its own number
of steps, a function only of the process-wide configuration and of its own
connection arguments and inbound messages; the other session and the
schedule have no influence, and the session's resources stay the fresh ones
`run_bot` built from its arguments and the read-only configuration. -/
theorem sessions_isolated (deser : Msg → Option PFrame) (sched : List Bool)
    (cfg : Config) (a b : ConnArgs) (inA inB : List Msg) :
    (runSchedule deser sched
        { first := newSession cfg a inA, second := newSession cfg b inB }).first
      = (sessionStep deser)^[sched.count true] (newSession cfg a inA)
    ∧ (runSchedule deser sched
        { first := newSession cfg a inA, second := newSession cfg b inB }).second
      = (sessionStep deser)^[sched.count false] (newSession cfg b inB)
    ∧ (runSchedule deser sched
        { first := newSession cfg a inA, second := newSession cfg b inB }).first.res
      = run_bot cfg a := by
  obtain ⟨h1, h2⟩ := runSchedule_components deser sched
    { first := newSession cfg a inA, second := newSession cfg b inB }
  refine ⟨h1, h2, ?_⟩
  rw [h1, iterate_sessionStep_res]
  rfl

theorem vad_silent_foldl (p : VADParams) (dur : ℚ) :
    ∀ (samples : List VadSample) (st : VadState),
      (∀ s ∈ samples, isSpeech p s = false) → st.speaking = false →
      (samples.foldl (vadStep p dur) st).segments = st.segments
      ∧ (samples.foldl (vadStep p dur) st).speaking = false := by
  intro samples
  induction samples with
  | nil =>
      intro st _ hst
      exact ⟨rfl, hst⟩
  | cons s rest ih =>
      intro st hall hst
      rw [List.foldl_cons]
      have hs : isSpeech p s = false := hall s (List.mem_cons_self s rest)
      have hstep : vadStep p dur st s = { st with speechRun := 0 } := by
        simp [vadStep, hs, hst]
      rw [hstep]
      exact ih { st with speechRun := 0 }
        (fun x hx => hall x (List.mem_cons_of_mem s hx)) hst

theorem isSpeech_silent :
    isSpeech vadParams { confidence := 0, volume := 0 } = false := by
  have h1 : ¬((7 : ℚ)/10 ≤ 0) := by norm_num
  simp [isSpeech, vadParams, decide_eq_false h1]

theorem isSpeech_loud :
    isSpeech vadParams { confidence := 1, volume := 1 } = true := by
  have h1 : ((7 : ℚ)/10 ≤ 1) := by norm_num
  have h2 : ((6 : ℚ)/10 ≤ 1) := by norm_num
  simp [isSpeech, vadParams, decide_eq_true h1, decide_eq_true h2]

theorem foldl_replicate_fixed {α β : Type} (f : α → β → α) (a : α) (b : β)
    (h : f a b = a) (n : Nat) : (List.replicate n b).foldl f a = a := by
  induction n with
  | zero => rfl
  | succ n ih => rw [List.replicate_succ, List.foldl_cons, h]; exact ih

theorem silence_all_silent :
    ∀ s ∈ silenceSamples, isSpeech vadParams s = false := by
  intro s hs
  rw [List.eq_of_mem_replicate hs]
  exact isSpeech_silent

/-- C8: the input boundary's VAD is configured with exactly minimum volume
0.6, speech-start debounce 0.2 seconds, speech-stop debounce 1.2 seconds and
confidence threshold 0.7; under the modelled debounce semantics these
parameters make any all-silent input emit no utterance segment, and two
seconds of silence followed by a three-second utterance yield exactly one
segment. -/
theorem vad_configuration (samples : List VadSample)
    (hall : ∀ s ∈ samples, isSpeech vadParams s = false) :
    vadParams = { min_volume := 6/10, start_secs := 2/10,
                  stop_secs := 12/10, confidence := 7/10 }
    ∧ vadSegments vadParams (1/10) samples = 0
    ∧ vadSegments vadParams (1/10) (silenceSamples ++ speechSamples) = 1 := by
  refine ⟨rfl, ?_, ?_⟩
  · exact (vad_silent_foldl vadParams (1/10) samples
      { speaking := false, speechRun := 0, silenceRun := 0, segments := 0 }
      hall rfl).1
  · have hstep_sil : vadStep vadParams (1/10)
        { speaking := false, speechRun := 0, silenceRun := 0, segments := 0 }
        { confidence := 0, volume := 0 }
        = { speaking := false, speechRun := 0, silenceRun := 0,
            segments := 0 } := by
      simp [vadStep, isSpeech_silent]
    have hfold_sil : silenceSamples.foldl (vadStep vadParams (1/10))
        { speaking := false, speechRun := 0, silenceRun := 0, segments := 0 }
        = { speaking := false, speechRun := 0, silenceRun := 0,
            segments := 0 } :=
      foldl_replicate_fixed _ _ _ hstep_sil 20
    have hs1 : vadStep vadParams (1/10)
        { speaking := false, speechRun := 0, silenceRun := 0, segments := 0 }
        { confidence := 1, volume := 1 }
        = { speaking := false, speechRun := 1/10, silenceRun := 0,
            segments := 0 } := by
      simp [vadStep, isSpeech_loud]
      norm_num [vadParams]
    have hs2 : vadStep vadParams (1/10)
        { speaking := false, speechRun := 1/10, silenceRun := 0,
          segments := 0 }
        { confidence := 1, volume := 1 }
        = { speaking := true, speechRun := 0, silenceRun := 0,
            segments := 1 } := by
      simp [vadStep, isSpeech_loud]
      norm_num [vadParams]
    have hs3 : vadStep vadParams (1/10)
        { speaking := true, speechRun := 0, silenceRun := 0, segments := 1 }
        { confidence := 1, volume := 1 }
        = { speaking := true, speechRun := 0, silenceRun := 0,
            segments := 1 } := by
      simp [vadStep, isSpeech_loud]
    have hrep : speechSamples
        = { confidence := 1, volume := 1 }
          :: ({ confidence := 1, volume := 1 } : VadSample)
          :: List.replicate 28 { confidence := 1, volume := 1 } := rfl
    show ((silenceSamples ++ speechSamples).foldl (vadStep vadParams (1/10))
      { speaking := false, speechRun := 0, silenceRun := 0,
        segments := 0 }).segments = 1
    rw [List.foldl_append, hfold_sil, hrep, List.foldl_cons, hs1,
      List.foldl_cons, hs2, foldl_replicate_fixed _ _ _ hs3 28]

/-- C8 witness: the concrete two-second silence input satisfies the
all-silent hypothesis. -/
theorem vad_configuration_witness :
    vadParams = { min_volume := 6/10, start_secs := 2/10,
                  stop_secs := 12/10, confidence := 7/10 }
    ∧ vadSegments vadParams (1/10) silenceSamples = 0
    ∧ vadSegments vadParams (1/10) (silenceSamples ++ speechSamples) = 1 :=
  vad_configuration silenceSamples silence_all_silent

end PipecatDemo
